import Mathlib

/-!
Verification of the `jsonv` streaming JSON decoder/validator.

This file shallowly embeds the core of the repository — the tokenizing
scanner (`scanner.go`), the string unescape engine (`UnquoteBytes`), the
schema parsers (`types_struct.go`, `types_integer.go`, the slice, string
and enum parsers) and the `ValidatingParser` driver — as executable Lean
definitions, and proves properties of those definitions.

Modelling conventions:
* Bytes are natural numbers (`Byte := Nat`, values 0–255); byte strings
  are `List Byte`.
* Go's `io.Reader` is modelled as a list of chunks: each call to `Read`
  delivers the next chunk, and after the chunks are exhausted every call
  yields `endErr` (either `io.EOF` or a transport error).  `Scanner.buf`
  keeps every byte read so far and `roff` is the read cursor; the source's
  buffer compaction/growth in `fillBuffer` relocates bytes without
  changing the unread suffix `buf[roff:]`, so it is not reproduced.
* Go `error` values are a sum type `GoErr` whose constructors mirror the
  dynamic types the source inspects (`*ParseError`, `io.EOF`, other IO
  errors, `ValidationError`, `fmt.Errorf` results).  A Go `panic` is the
  distinguished value `GoErr.panicked`.
* Loops that Go bounds only by input exhaustion are written with an
  explicit fuel computed from the total number of available input bytes
  (`Scanner.totalLen`); the fuel-exhaustion branches are unreachable for
  those fuels.  The one loop the source itself bounds — the 1024-round
  loop of `bytesUntilPred` — uses the literal fuel 1024 from the source.
-/

set_option maxRecDepth 8000

namespace Jsonv

/-- A byte from the input stream; values are 0–255. -/
abbrev Byte := Nat

/-- One validation record (`InvalidData` in the source): a slash-delimited
path and a human-readable message. -/
structure InvalidData where
  path : String
  msg : String
deriving Repr, DecidableEq

/-- Go `error` values, distinguished the way the source distinguishes them
by dynamic type or identity. -/
inductive GoErr where
  | parseError (msg : String)
  | eof
  | ioError (msg : String)
  | validation (errs : List InvalidData)
  | generic (msg : String)
  | panicked (msg : String)
deriving Repr, DecidableEq

/-- `ValidationError.Add`: the capacity-growing append of one record.  The
observable content is appending one element. -/
def vAdd (v : List InvalidData) (path msg : String) : List InvalidData :=
  v ++ [⟨path, msg⟩]

/-- `ValidationError.AddMany`: append a whole record list. -/
def vAddMany (v o : List InvalidData) : List InvalidData :=
  v ++ o

/-- `NewSingleVErr`: a one-record `ValidationError`. -/
def NewSingleVErr (path msg : String) : GoErr :=
  .validation [⟨path, msg⟩]

/-- Token kinds produced by the scanner (final revision of `scanner.go`). -/
inductive TokenType where
  | tokenError
  | tokenObjectBegin
  | tokenObjectEnd
  | tokenArrayBegin
  | tokenArrayEnd
  | tokenItemSep
  | tokenPropSep
  | tokenString
  | tokenNumber
  | tokenTrue
  | tokenFalse
  | tokenNull
deriving Repr, DecidableEq

/-- `TokenType.String()`: display form used inside error messages. -/
def TokenType.str : TokenType → String
  | .tokenObjectBegin => "\x7b"
  | .tokenObjectEnd => "\x7d"
  | .tokenArrayBegin => "["
  | .tokenArrayEnd => "]"
  | .tokenItemSep => ","
  | .tokenPropSep => ":"
  | .tokenString => "string"
  | .tokenNumber => "number"
  | .tokenTrue => "true"
  | .tokenFalse => "false"
  | .tokenNull => "null"
  | .tokenError => "Error"

/-- `isSpace`: JSON whitespace bytes (space, tab, LF, CR). -/
def isSpace (c : Byte) : Bool :=
  c = 0x20 || c = 0x09 || c = 0x0A || c = 0x0D

/-- `notSpace`: negation of `isSpace`, as a separate source function. -/
def notSpace (c : Byte) : Bool :=
  !(c = 0x20 || c = 0x09 || c = 0x0A || c = 0x0D)

/-- The scanner state: buffered bytes, read cursor, the remaining reader
chunks, the error the reader reports once exhausted, and the sticky most
recent read error (`rerr`). -/
structure Scanner where
  buf : List Byte
  roff : Nat
  chunks : List (List Byte)
  endErr : GoErr
  rerr : Option GoErr
deriving Repr, DecidableEq

/-- `NewScanner` over a reader that delivers `chunks` then `endErr`. -/
def NewScanner (chunks : List (List Byte)) (endErr : GoErr) : Scanner :=
  ⟨[], 0, chunks, endErr, none⟩

/-- A scanner whose buffer already holds the whole document (the state after
the reader's single chunk has been filled in), with `io.EOF` to follow. -/
def bufScanner (doc : List Byte) : Scanner :=
  ⟨doc, 0, [], .eof, none⟩

/-- Total number of bytes the scanner can still observe; used to size fuels. -/
def Scanner.totalLen (s : Scanner) : Nat :=
  s.buf.length + (s.chunks.map List.length).sum

/-- `Scanner.fillBuffer`: read the next chunk into the buffer.  Returns an
error only when no byte was obtained; the read error is stored stickily. -/
def Scanner.fillBuffer (s : Scanner) : Scanner × Option GoErr :=
  match s.rerr with
  | some e => (s, some e)
  | none =>
    match s.chunks with
    | [] => ({ s with rerr := some s.endErr }, some s.endErr)
    | c :: rest => ({ s with buf := s.buf ++ c, chunks := rest }, none)

/-- The `for len(s.buf) < s.roff+count { fillBuffer }` loop of
`Scanner.atLeast`.  Each successful fill consumes a chunk and an exhausted
reader makes the next fill fail, so fuel `chunks.length + 1` always
suffices; the fuel-exhaustion branch is unreachable. -/
def Scanner.atLeastGo : Nat → Scanner → Nat → Scanner × Option GoErr
  | 0, s, _ => (s, some (.panicked "unreachable: atLeast fuel"))
  | fuel+1, s, count =>
    if s.buf.length < s.roff + count then
      match s.fillBuffer with
      | (s', some e) => (s', some e)
      | (s', none) => Scanner.atLeastGo fuel s' count
    else (s, none)

/-- `Scanner.atLeast`: block until at least `count` unread bytes are buffered. -/
def Scanner.atLeast (s : Scanner) (count : Nat) : Scanner × Option GoErr :=
  Scanner.atLeastGo (s.chunks.length + 1) s count

/-- The inner `for _, c := range s.buf[s.roff+offset:]` scan of
`bytesUntilPred`: returns the offset of the first byte satisfying `p`, or
the offset just past the scanned bytes. -/
def scanPred (p : Byte → Bool) : List Byte → Nat → Option Nat × Nat
  | [], off => (none, off)
  | c :: cs, off => if p c then (some off, off) else scanPred p cs (off+1)

/-- The outer loop of `Scanner.bytesUntilPred`; the source bounds it to 1024
rounds, each round waiting for at least one unscanned byte and then scanning
to the end of the buffer. -/
def Scanner.bupLoop : Nat → Scanner → Nat → (Byte → Bool) → Scanner × Nat × Option GoErr
  | 0, s, offset, _ => (s, offset, some (.parseError "1024 iterations and no result"))
  | i+1, s, offset, p =>
    match Scanner.atLeastGo (s.chunks.length + 1) s (offset+1) with
    | (s', some e) => (s', offset, some e)
    | (s', none) =>
      match scanPred p (s'.buf.drop (s'.roff + offset)) offset with
      | (some found, _) => (s', found, none)
      | (none, offset') => Scanner.bupLoop i s' offset' p

/-- `Scanner.bytesUntilPred`: find the first byte at or after
`roff + offset` satisfying `p`, reading more input as needed, bounded to
1024 scan rounds. -/
def Scanner.bytesUntilPred (s : Scanner) (offset : Nat) (p : Byte → Bool) :
    Scanner × Nat × Option GoErr :=
  Scanner.bupLoop 1024 s offset p

/-! ### The number-literal state machine -/

/-- The states of the JSON-number state machine; each corresponds to one of
the `numState*` functions of the source. -/
inductive NumParseState where
  | stNeg | st0 | st1 | stDot | stDot0 | stE | stESign | stE0
deriving Repr, DecidableEq

/-- Is the byte an ASCII digit `1`–`9`? -/
def isDigit19 (c : Byte) : Bool := 49 ≤ c && c ≤ 57

/-- Is the byte an ASCII digit `0`–`9`? -/
def isDigit09 (c : Byte) : Bool := 48 ≤ c && c ≤ 57

/-- `numStateNeg`: just consumed the minus sign. -/
def numStateNeg (c : Byte) : Option NumParseState × Option GoErr :=
  if c = 48 then (some .st0, none)
  else if isDigit19 c then (some .st1, none)
  else (none, some (.parseError "expected digit in number literal"))

/-- `numState0`: first digit was `0`. -/
def numState0 (c : Byte) : Option NumParseState × Option GoErr :=
  if c = 46 then (some .stDot, none)
  else if c = 101 || c = 69 then (some .stE, none)
  else (none, none)

/-- `numState1`: first digit was nonzero. -/
def numState1 (c : Byte) : Option NumParseState × Option GoErr :=
  if isDigit09 c then (some .st1, none)
  else if c = 46 then (some .stDot, none)
  else if c = 101 || c = 69 then (some .stE, none)
  else (none, none)

/-- `numStateDot`: just consumed the decimal point. -/
def numStateDot (c : Byte) : Option NumParseState × Option GoErr :=
  if isDigit09 c then (some .stDot0, none)
  else (none, some (.parseError "expected digit in number literal"))

/-- `numStateDot0`: at least one digit after the decimal point. -/
def numStateDot0 (c : Byte) : Option NumParseState × Option GoErr :=
  if isDigit09 c then (some .stDot0, none)
  else if c = 101 || c = 69 then (some .stE, none)
  else (none, none)

/-- `numStateE`: just consumed `e` or `E`. -/
def numStateE (c : Byte) : Option NumParseState × Option GoErr :=
  if isDigit09 c then (some .stE0, none)
  else if c = 45 || c = 43 then (some .stESign, none)
  else (none, some (.parseError "expected digit or sign after 'e' in number literal"))

/-- `numStateESign`: consumed the exponent sign. -/
def numStateESign (c : Byte) : Option NumParseState × Option GoErr :=
  if isDigit09 c then (some .stE0, none)
  else (none, some (.parseError "expected digit after exponent sign in number literal"))

/-- `numStateE0`: at least one exponent digit. -/
def numStateE0 (c : Byte) : Option NumParseState × Option GoErr :=
  if isDigit09 c then (some .stE0, none)
  else (none, none)

/-- Dispatch a state tag to its transition function (in Go the state *is*
the function value). -/
def numApply : NumParseState → Byte → Option NumParseState × Option GoErr
  | .stNeg => numStateNeg
  | .st0 => numState0
  | .st1 => numState1
  | .stDot => numStateDot
  | .stDot0 => numStateDot0
  | .stE => numStateE
  | .stESign => numStateESign
  | .stE0 => numStateE0

/-! ### ReadToken and PeekToken -/

/-- Keyword byte strings. -/
def TOK_TRUE : List Byte := [116, 114, 117, 101]

/-- Keyword byte string for `false`. -/
def TOK_FALSE : List Byte := [102, 97, 108, 115, 101]

/-- Keyword byte string for `null`. -/
def TOK_NULL : List Byte := [110, 117, 108, 108]

/-- ASCII bytes rendered as a `String`, for error messages built with
`string(buf)` in the source. -/
def strOfBytes (bs : List Byte) : String :=
  String.mk (bs.map fun b => Char.ofNat b)

/-- The single-character token switch of `ReadToken`/`PeekToken`. -/
def singleCharTok (c : Byte) : Option TokenType :=
  if c = 123 then some .tokenObjectBegin
  else if c = 125 then some .tokenObjectEnd
  else if c = 91 then some .tokenArrayBegin
  else if c = 93 then some .tokenArrayEnd
  else if c = 44 then some .tokenItemSep
  else if c = 58 then some .tokenPropSep
  else none

/-- The `t`/`f`/`n` keyword dispatch of `ReadToken`. -/
def keywordFor (c : Byte) : Option (TokenType × List Byte) :=
  if c = 116 then some (.tokenTrue, TOK_TRUE)
  else if c = 102 then some (.tokenFalse, TOK_FALSE)
  else if c = 110 then some (.tokenNull, TOK_NULL)
  else none

/-- `unicode.IsDigit(rune(first))` for a single byte: only the ASCII digits
`0`–`9` are in Unicode category Nd among U+0000–U+00FF. -/
def isDigitByte (c : Byte) : Bool := 48 ≤ c && c ≤ 57

/-- The trailing `if s.rerr != nil { return … } else { panic(…) }` of
`ReadToken`, reached when a branch fell through without producing a token. -/
def Scanner.finishError (s : Scanner) : Scanner × TokenType × List Byte × Option GoErr :=
  match s.rerr with
  | some e => (s, .tokenError, s.buf.drop s.roff, some e)
  | none => (s, .tokenError, s.buf.drop s.roff,
      some (.panicked "Didn't get any more data but didn't get an EOF"))

/-- Result of the number-reading loop inside `ReadToken`. -/
inductive NumLoopRes where
  | failed (s : Scanner) (perr : GoErr)
  | finished (s : Scanner) (offset : Nat)
  | incomplete (s : Scanner) (offset : Nat) (st : NumParseState)
deriving Repr, DecidableEq

/-- The `for offset = 1; s.atLeast(offset+1) == nil; offset += 1` loop that
drives the number state machine.  Offsets strictly increase and `atLeast`
fails once they pass the available input, so any fuel above
`totalLen + 2` is never exhausted. -/
def Scanner.numLoop : Nat → Scanner → Nat → NumParseState → NumLoopRes
  | 0, s, offset, st => .incomplete s offset st
  | fuel+1, s, offset, st =>
    match s.atLeast (offset+1) with
    | (s', some _) => .incomplete s' offset st
    | (s', none) =>
      match numApply st (s'.buf.getD (s'.roff + offset) 0) with
      | (_, some perr) => .failed s' perr
      | (none, none) => .finished s' offset
      | (some st', none) => Scanner.numLoop fuel s' (offset+1) st'

/-- Result of the string-reading loop inside `ReadToken`. -/
inductive StrLoopRes where
  | found (s : Scanner) (offset : Nat)
  | broke (s : Scanner)
deriving Repr, DecidableEq

/-- The quote/escape scanning loop of `ReadToken`'s string branch.
`escapePos` is the offset of the last escape byte (initially −100); a
`bytesUntilPred` failure breaks out to the trailing error check.  Offsets
strictly increase, so fuel `totalLen + 2` is never exhausted. -/
def Scanner.stringLoop : Nat → Scanner → Int → Nat → StrLoopRes
  | 0, s, _, _ => .broke s
  | fuel+1, s, escapePos, offset =>
    let offset1 := offset + 1
    match s.bytesUntilPred offset1 (fun c => c = 92 || c = 34) with
    | (s', _, some _) => .broke s'
    | (s', off', none) =>
      let char := s'.buf.getD (s'.roff + off') 0
      if (off' : Int) = escapePos + 1 then
        Scanner.stringLoop fuel s' escapePos off'
      else if char = 34 then
        .found s' off'
      else
        Scanner.stringLoop fuel s' (off' : Int) off'

/-- `Scanner.ReadToken`: skip whitespace and read one JSON token.  Returns
the (possibly updated) scanner, the token type, the token's byte span, and
the error if any.  `rcount` bookkeeping is omitted (it is never read). -/
def Scanner.readToken (s0 : Scanner) : Scanner × TokenType × List Byte × Option GoErr :=
  match s0.bytesUntilPred 0 notSpace with
  | (s1, n, werr) =>
  let s : Scanner := { s1 with roff := s1.roff + n, rerr := werr }
  if s.buf.length ≤ s.roff then
    (s, .tokenError, s.buf.drop s.roff, s.rerr)
  else
    let first := s.buf.getD s.roff 0
    match singleCharTok first with
    | some tok => ({ s with roff := s.roff + 1 }, tok, [first], none)
    | none =>
      match keywordFor first with
      | some (tok, lookFor) =>
        match s.atLeast lookFor.length with
        | (s', none) =>
          let buf := (s'.buf.drop s'.roff).take lookFor.length
          if buf = lookFor then
            ({ s' with roff := s'.roff + lookFor.length }, tok, buf, none)
          else
            (s', .tokenError, buf,
              some (.parseError ("Expected " ++ strOfBytes lookFor ++ ", not " ++ strOfBytes buf)))
        | (s', some _) => s'.finishError
      | none =>
        if first = 34 then
          match s.stringLoop (s.totalLen + 2) (-100) 0 with
          | .found s' off =>
            let buf := (s'.buf.drop s'.roff).take (off + 1)
            ({ s' with roff := s'.roff + (off + 1) }, .tokenString, buf, none)
          | .broke s' => s'.finishError
        else if first = 45 || isDigitByte first then
          let stInit : NumParseState :=
            if first = 45 then .stNeg else if first = 48 then .st0 else .st1
          match s.numLoop (s.totalLen + 2) 1 stInit with
          | .failed s' perr => (s', .tokenError, s'.buf.drop s'.roff, some perr)
          | .finished s' offset =>
            let buf := (s'.buf.drop s'.roff).take offset
            ({ s' with roff := s'.roff + offset }, .tokenNumber, buf, none)
          | .incomplete s' offset st =>
            -- hand a fake ' ' (0x20) to finish off an incomplete parse;
            -- the transition's error is discarded (`state, _ = state(0x20)`)
            match numApply st 0x20 with
            | (none, _) =>
              let buf := (s'.buf.drop s'.roff).take offset
              ({ s' with roff := s'.roff + offset }, .tokenNumber, buf, none)
            | (some _, _) => s'.finishError
        else
          (s, .tokenError, s.buf.drop s.roff, some (.parseError "Expected valid JSON"))

/-- The first-byte switch of `PeekToken` (digits and `-` peek as numbers). -/
def peekTok (c : Byte) : Option TokenType :=
  match singleCharTok c with
  | some tok => some tok
  | none =>
    if c = 116 then some .tokenTrue
    else if c = 102 then some .tokenFalse
    else if c = 110 then some .tokenNull
    else if c = 34 then some .tokenString
    else if c = 45 || isDigitByte c then some .tokenNumber
    else none

/-- `Scanner.PeekToken`: identify the next token's type without consuming
it (the read cursor stops at its first byte). -/
def Scanner.peekToken (s0 : Scanner) : Scanner × TokenType × Option GoErr :=
  match s0.bytesUntilPred 0 notSpace with
  | (s1, n, werr) =>
  let s : Scanner := { s1 with roff := s1.roff + n, rerr := werr }
  if s.buf.length ≤ s.roff then
    (s, .tokenError, s.rerr)
  else
    match peekTok (s.buf.getD s.roff 0) with
    | some tok => (s, tok, none)
    | none => (s, .tokenError, some (.parseError "Invaid JSON"))

/-! ### SkipValue -/

/-- The three mutually recursive skipping routines of the source
(`SkipValue`/`_skipValue`, `skipObject`, `skipArray`), written as one
structurally recursive function over a phase tag so that the shared fuel
is the single decreasing argument. -/
inductive SkipPhase where
  | value   -- `SkipValue`, with the `_skipValue` dispatch inlined
  | object  -- the `skipObject` loop
  | array   -- the `skipArray` loop
deriving Repr, DecidableEq

/-- `SkipValue`/`skipObject`/`skipArray`.  Go recurses without bound; here
one shared fuel decreases on every loop iteration and recursive call, and
the `SkipValue` wrapper supplies a fuel large enough for any value the
input can hold, so the fuel-exhaustion branch is unreachable. -/
def skipF : Nat → SkipPhase → Scanner → Scanner × Option GoErr
  | 0, _, s => (s, some (.panicked "unreachable: skip fuel"))
  | fuel+1, .value, s =>
    match s.readToken with
    | (s1, tok, _, err) =>
    if tok = .tokenError then (s1, err)
    else
      match tok with
      | .tokenObjectBegin => skipF fuel .object s1
      | .tokenArrayBegin => skipF fuel .array s1
      | .tokenString => (s1, none)
      | .tokenNumber => (s1, none)
      | .tokenTrue => (s1, none)
      | .tokenFalse => (s1, none)
      | .tokenNull => (s1, none)
      | _ => (s1, some (.parseError "Expected JSON value, e.g. string, bool, etc."))
  | fuel+1, .object, s =>
    match s.readToken with
    | (s1, tok, _, err) =>
    match err with
    | some e => (s1, some e)
    | none =>
      if tok = .tokenObjectEnd then (s1, none)
      else if tok ≠ .tokenString then
        (s1, some (.parseError ("Expected string or '\x7d', not " ++ tok.str)))
      else
        match s1.readToken with
        | (s2, tokc, _, errc) =>
        match errc with
        | some e => (s2, some e)
        | none =>
          if tokc ≠ .tokenPropSep then
            (s2, some (.parseError ("Expected ':' not " ++ tokc.str)))
          else
            match skipF fuel .value s2 with
            | (s', some e) => (s', some e)
            | (s', none) =>
              match s'.readToken with
              | (s3, toks, _, errs) =>
              match errs with
              | some e => (s3, some e)
              | none =>
                if toks = .tokenItemSep then skipF fuel .object s3
                else if toks = .tokenObjectEnd then (s3, none)
                else (s3, some (.parseError ("Expected ',' or '\x7d', not " ++ toks.str)))
  | fuel+1, .array, s =>
    match s.readToken with
    | (s1, tok, _, err) =>
    match err with
    | some e => (s1, some e)
    | none =>
      if tok = .tokenArrayEnd then (s1, none)
      else
        -- `s._skipValue(tok)`, inlined
        let step : Scanner × Option GoErr :=
          match tok with
          | .tokenObjectBegin => skipF fuel .object s1
          | .tokenArrayBegin => skipF fuel .array s1
          | .tokenString => (s1, none)
          | .tokenNumber => (s1, none)
          | .tokenTrue => (s1, none)
          | .tokenFalse => (s1, none)
          | .tokenNull => (s1, none)
          | _ => (s1, some (.parseError "Expected JSON value, e.g. string, bool, etc."))
        match step with
        | (s', some e) => (s', some e)
        | (s', none) =>
          match s'.readToken with
          | (s3, toks, _, errs) =>
          match errs with
          | some e => (s3, some e)
          | none =>
            if toks = .tokenItemSep then skipF fuel .array s3
            else if toks = .tokenArrayEnd then (s3, none)
            else (s3, some (.parseError ("Expected ',' or ']', not " ++ toks.str)))

/-- `Scanner.SkipValue`: consume and discard one complete JSON value. -/
def Scanner.SkipValue (s : Scanner) : Scanner × Option GoErr :=
  skipF (s.totalLen + 1) .value s

/-! ### The string unescape engine (`getu4`, `Unquote`, `UnquoteBytes`) -/

/-- Value of one ASCII hex digit, else `none` (the digit set accepted by
`strconv.ParseUint(…, 16, 64)`). -/
def hexVal (c : Byte) : Option Nat :=
  if 48 ≤ c && c ≤ 57 then some (c - 48)
  else if 97 ≤ c && c ≤ 102 then some (c - 87)
  else if 65 ≤ c && c ≤ 70 then some (c - 55)
  else none

/-- `getu4`: decode `\uXXXX` at the beginning of `s`, returning the hex
value, or −1. -/
def getu4 (s : List Byte) : Int :=
  if s.length < 6 || s.getD 0 0 ≠ 92 || s.getD 1 0 ≠ 117 then -1
  else
    match hexVal (s.getD 2 0), hexVal (s.getD 3 0), hexVal (s.getD 4 0), hexVal (s.getD 5 0) with
    | some a, some b, some c, some d => ((a * 4096 + b * 256 + c * 16 + d : Nat) : Int)
    | _, _, _, _ => -1

/-- `utf16.IsSurrogate`. -/
def utf16IsSurrogate (r : Int) : Bool :=
  0xD800 ≤ r && r < 0xE000

/-- `utf16.DecodeRune`: combine a surrogate pair, or U+FFFD if invalid. -/
def utf16DecodeRune (r1 r2 : Int) : Int :=
  if 0xD800 ≤ r1 && r1 < 0xDC00 && 0xDC00 ≤ r2 && r2 < 0xE000 then
    (r1 - 0xD800) * 0x400 + (r2 - 0xDC00) + 0x10000
  else 0xFFFD

/-- `utf8.EncodeRune`: UTF-8 bytes of a rune; surrogates and out-of-range
runes encode U+FFFD. -/
def utf8EncodeRune (r : Int) : List Byte :=
  if 0 ≤ r && r < 0x80 then [r.toNat]
  else if 0 ≤ r && r < 0x800 then
    [0xC0 + r.toNat / 0x40, 0x80 + r.toNat % 0x40]
  else if r < 0 || (0xD800 ≤ r && r < 0xE000) || 0x10FFFF < r then
    [0xEF, 0xBF, 0xBD]
  else if r < 0x10000 then
    [0xE0 + r.toNat / 0x1000, 0x80 + (r.toNat / 0x40) % 0x40, 0x80 + r.toNat % 0x40]
  else
    [0xF0 + r.toNat / 0x40000, 0x80 + (r.toNat / 0x1000) % 0x40,
     0x80 + (r.toNat / 0x40) % 0x40, 0x80 + r.toNat % 0x40]

/-- Is `c` a UTF-8 continuation byte (`0x80`–`0xBF`)? -/
def isCont (c : Byte) : Bool := 0x80 ≤ c && c ≤ 0xBF

/-- `utf8.DecodeRune`: the first rune of the byte list and its encoded
size; malformed or incomplete sequences give (U+FFFD, 1), mirroring Go's
accept ranges (no overlong forms, no surrogates, max U+10FFFF). -/
def utf8DecodeRune (p : List Byte) : Int × Nat :=
  match p with
  | [] => (0xFFFD, 0)
  | c0 :: rest =>
    if c0 < 0x80 then ((c0 : Int), 1)
    else if c0 < 0xC2 then (0xFFFD, 1)
    else if c0 ≤ 0xDF then
      match rest with
      | c1 :: _ =>
        if isCont c1 then (((c0 - 0xC0) * 0x40 + (c1 - 0x80) : Nat), 2) else (0xFFFD, 1)
      | _ => (0xFFFD, 1)
    else if c0 ≤ 0xEF then
      match rest with
      | c1 :: c2 :: _ =>
        let lo1 : Byte := if c0 = 0xE0 then 0xA0 else 0x80
        let hi1 : Byte := if c0 = 0xED then 0x9F else 0xBF
        if lo1 ≤ c1 && c1 ≤ hi1 && isCont c2 then
          (((c0 - 0xE0) * 0x1000 + (c1 - 0x80) * 0x40 + (c2 - 0x80) : Nat), 3)
        else (0xFFFD, 1)
      | _ => (0xFFFD, 1)
    else if c0 ≤ 0xF4 then
      match rest with
      | c1 :: c2 :: c3 :: _ =>
        let lo1 : Byte := if c0 = 0xF0 then 0x90 else 0x80
        let hi1 : Byte := if c0 = 0xF4 then 0x8F else 0xBF
        if lo1 ≤ c1 && c1 ≤ hi1 && isCont c2 && isCont c3 then
          (((c0 - 0xF0) * 0x40000 + (c1 - 0x80) * 0x1000 + (c2 - 0x80) * 0x40 + (c3 - 0x80) : Nat), 4)
        else (0xFFFD, 1)
      | _ => (0xFFFD, 1)
    else (0xFFFD, 1)

/-- The fast-path scan of `UnquoteBytes`: position of the first unusual
byte (quote, backslash, control, or malformed UTF-8), or the length if
there is none.  `r` advances every round, so fuel `length + 1` suffices. -/
def uqFastScan : Nat → List Byte → Nat → Nat
  | 0, _, r => r
  | fuel+1, s, r =>
    if r < s.length then
      let c := s.getD r 0
      if c = 92 || c = 34 || c < 32 then r
      else if c < 0x80 then uqFastScan fuel s (r + 1)
      else
        match utf8DecodeRune (s.drop r) with
        | (rr, size) =>
          if rr = 0xFFFD && size = 1 then r
          else uqFastScan fuel s (r + size)
    else r

/-- The slow-path copy loop of `UnquoteBytes` over the interior bytes `s`,
starting at read position `r` with output `b` accumulated so far.  Buffer
growth in the source only reallocates; output order is unchanged.  `r`
advances every round, so fuel `length + 1` suffices. -/
def uqSlowLoop : Nat → List Byte → Nat → List Byte → Option (List Byte)
  | 0, _, _, _ => none
  | fuel+1, s, r, b =>
    if r < s.length then
      let c := s.getD r 0
      if c = 92 then
        let r1 := r + 1
        if s.length ≤ r1 then none
        else
          let e := s.getD r1 0
          if e = 34 || e = 92 || e = 47 || e = 39 then uqSlowLoop fuel s (r1 + 1) (b ++ [e])
          else if e = 98 then uqSlowLoop fuel s (r1 + 1) (b ++ [8])
          else if e = 102 then uqSlowLoop fuel s (r1 + 1) (b ++ [12])
          else if e = 110 then uqSlowLoop fuel s (r1 + 1) (b ++ [10])
          else if e = 114 then uqSlowLoop fuel s (r1 + 1) (b ++ [13])
          else if e = 116 then uqSlowLoop fuel s (r1 + 1) (b ++ [9])
          else if e = 117 then
            -- `r--` back to the backslash, then read \uXXXX
            let rr := getu4 (s.drop r)
            if rr < 0 then none
            else
              let r6 := r + 6
              if utf16IsSurrogate rr then
                let rr1 := getu4 (s.drop r6)
                let dec := utf16DecodeRune rr rr1
                if dec ≠ 0xFFFD then
                  -- a valid pair; consume both escapes
                  uqSlowLoop fuel s (r6 + 6) (b ++ utf8EncodeRune dec)
                else
                  -- invalid surrogate; fall back to the replacement rune
                  uqSlowLoop fuel s r6 (b ++ utf8EncodeRune 0xFFFD)
              else uqSlowLoop fuel s r6 (b ++ utf8EncodeRune rr)
          else none
      else if c = 34 || c < 32 then none
      else if c < 0x80 then uqSlowLoop fuel s (r + 1) (b ++ [c])
      else
        match utf8DecodeRune (s.drop r) with
        | (rr, size) => uqSlowLoop fuel s (r + size) (b ++ utf8EncodeRune rr)
    else some b

/-- `UnquoteBytes`: decode a raw quoted-string token (quotes included) into
its unescaped bytes, or `none` on failure. -/
def UnquoteBytes (s : List Byte) : Option (List Byte) :=
  if s.length < 2 || s.getD 0 0 ≠ 34 || s.getD (s.length - 1) 0 ≠ 34 then none
  else
    let inner := (s.drop 1).take (s.length - 2)
    let r := uqFastScan (inner.length + 1) inner 0
    if r = inner.length then some inner
    else uqSlowLoop (inner.length + 1) inner r (inner.take r)

/-- Go's `string(bytes)` conversion: decode UTF-8, replacing malformed
sequences with U+FFFD rune by rune. -/
def bytesToStringF : Nat → List Byte → List Char → List Char
  | 0, _, acc => acc
  | fuel+1, bs, acc =>
    match bs with
    | [] => acc
    | _ :: _ =>
      match utf8DecodeRune bs with
      | (rr, size) => bytesToStringF fuel (bs.drop (max size 1)) (acc ++ [Char.ofNat rr.toNat])

/-- Byte list to `String`, as Go's `string([]byte)`. -/
def bytesToString (bs : List Byte) : String :=
  String.mk (bytesToStringF (bs.length + 1) bs [])

/-- `Unquote`: `UnquoteBytes` then conversion to a string. -/
def Unquote (s : List Byte) : Option String :=
  (UnquoteBytes s).map bytesToString

/-! ### `strconv.ParseInt` and the integer validators -/

/-- Accumulate the value of a base-10 digit string; `none` if any byte is
not an ASCII digit. -/
def digitsVal : List Byte → Nat → Option Nat
  | [], acc => some acc
  | c :: cs, acc =>
    if isDigit09 c then digitsVal cs (acc * 10 + (c - 48)) else none

/-- `strconv.ParseInt(string(buf), 10, bitSize)`: optional sign, base-10
digits, signed range check for the given bit width.  The returned message
is `err.Error()` of the `*strconv.NumError`. -/
def parseIntGo (buf : List Byte) (bitSize : Nat) : Except String Int :=
  let str := strOfBytes buf
  let (neg, digits) :=
    match buf with
    | 43 :: rest => (false, rest)
    | 45 :: rest => (true, rest)
    | _ => (false, buf)
  if digits.isEmpty then
    .error ("strconv.ParseInt: parsing \"" ++ str ++ "\": invalid syntax")
  else
    match digitsVal digits 0 with
    | none => .error ("strconv.ParseInt: parsing \"" ++ str ++ "\": invalid syntax")
    | some n =>
      let v : Int := if neg then -(n : Int) else (n : Int)
      if v < -(2 ^ (bitSize - 1) : Int) ∨ (2 ^ (bitSize - 1) : Int) - 1 < v then
        .error ("strconv.ParseInt: parsing \"" ++ str ++ "\": value out of range")
      else .ok v

/-- An integer validator: the `IntegerValidator.ValidateInteger` capability
(`none` = valid, `some msg` = the returned error's message). -/
abbrev IntValidator := Int → Option String

/-- `MinI`: values must be ≥ m (message `MIN_ERROR`). -/
def MinI (m : Int) : IntValidator := fun i =>
  if i ≥ m then none else some ("Must be greater than or equal to " ++ toString m)

/-- `MaxI`: values must be ≤ m (message `MAX_ERROR`). -/
def MaxI (m : Int) : IntValidator := fun i =>
  if i ≤ m then none else some ("Must be less than or equal to " ++ toString m)

/-! ### The integer parser (`types_integer.go`) -/

/-- The Go integer destination kinds accepted by `IntegerParser.Prepare`
(`int`/`uint` are 64-bit on the platforms the repository targets). -/
inductive IntKind where
  | iInt | i8 | i16 | i32 | i64 | uInt | u8 | u16 | u32 | u64
deriving Repr, DecidableEq

/-- `reflect.Type.Bits()` of the destination kind. -/
def IntKind.bits : IntKind → Nat
  | .iInt => 64 | .i8 => 8 | .i16 => 16 | .i32 => 32 | .i64 => 64
  | .uInt => 64 | .u8 => 8 | .u16 => 16 | .u32 => 32 | .u64 => 64

/-- Display of `reflect.TypeOf(v)` for the pointer-to-destination. -/
def IntKind.goName : IntKind → String
  | .iInt => "*int" | .i8 => "*int8" | .i16 => "*int16" | .i32 => "*int32" | .i64 => "*int64"
  | .uInt => "*uint" | .u8 => "*uint8" | .u16 => "*uint16" | .u32 => "*uint32" | .u64 => "*uint64"

/-- `IntegerParser.Prepare` (`types_integer.go`): every Go integer kind is
accepted and the destination's bit width is cached as `bitSize`. -/
def integerPrepare (k : IntKind) : Nat := k.bits

/-- Go's in-range conversion `intW(v)`: two's-complement wrap to `w` bits,
signed. -/
def wrapSigned (w : Nat) (v : Int) : Int :=
  (v + 2 ^ (w - 1)) % 2 ^ w - 2 ^ (w - 1)

/-- Go's conversion `uintW(v)`: wrap to `w` bits, unsigned. -/
def wrapUnsigned (w : Nat) (v : Int) : Int :=
  v % 2 ^ w

/-- `IntegerParser.Parse` (`types_integer.go`): read a number token, parse
it via `strconv.ParseInt(…, 10, bitSize)`, run the validators (collecting
validation errors and skipping assignment if any fail), then assign through
the destination-type switch.  The switch covers every integer kind except
`*int32` and `*uint32`, which fall to the `default:` parse error, mirroring
the source. -/
def integerParse (bitSize : Nat) (vs : List IntValidator) (dest : IntKind)
    (path : String) (s : Scanner) (v : Int) : Scanner × Int × Option GoErr :=
  match s.readToken with
  | (s1, tok, buf, err) =>
  if tok = .tokenError then (s1, v, err)
  else if tok ≠ .tokenNumber then
    (s1, v, some (.parseError ("Expected an integer, got " ++ strOfBytes buf)))
  else
    match parseIntGo buf bitSize with
    | .error msg => (s1, v, some (.validation (vAdd [] path msg)))
    | .ok tv =>
      let errs := vs.foldl (fun errs vf =>
        match vf tv with
        | some m => vAdd errs path m
        | none => errs) []
      if 0 < errs.length then (s1, v, some (.validation errs))
      else
        match dest with
        | .iInt => (s1, wrapSigned 64 tv, none)
        | .i8 => (s1, wrapSigned 8 tv, none)
        | .i16 => (s1, wrapSigned 16 tv, none)
        | .i64 => (s1, tv, none)
        | .uInt => (s1, wrapUnsigned 64 tv, none)
        | .u8 => (s1, wrapUnsigned 8 tv, none)
        | .u16 => (s1, wrapUnsigned 16 tv, none)
        | .u64 => (s1, wrapUnsigned 64 tv, none)
        | .i32 => (s1, v, some (.parseError
            ("Cannot assign integer to variable of type " ++ IntKind.goName .i32 ++ ", path %!v(MISSING)")))
        | .u32 => (s1, v, some (.parseError
            ("Cannot assign integer to variable of type " ++ IntKind.goName .u32 ++ ", path %!v(MISSING)")))

/-! ### The string parser (`StringParser.Parse`) -/

/-- A string validator: the `StringValidator.ValidateString` capability. -/
abbrev StrValidator := String → Option String

/-- `StringParser.Parse`: read a string token, unquote it, assign, then run
the string validators (the destination keeps the decoded value even when
validators fail, as in the source). -/
def stringParse (vs : List StrValidator) (path : String) (s : Scanner) (v : String) :
    Scanner × String × Option GoErr :=
  match s.readToken with
  | (s1, tok, buf, err) =>
  if tok = .tokenError then (s1, v, err)
  else if tok ≠ .tokenString then
    (s1, v, some (NewSingleVErr path ("Expected a string, go " ++ strOfBytes buf)))
  else
    match Unquote buf with
    | none => (s1, v, some (.validation (vAdd [] path "Invalid string")))
    | some str =>
      let errs := vs.foldl (fun errs vf =>
        match vf str with
        | some m => vAdd errs path m
        | none => errs) []
      if 0 < errs.length then (s1, str, some (.validation errs))
      else (s1, str, none)

/-! ### The struct parser (`types_struct.go`) -/

/-- Bytes of an ASCII string (Go's `[]byte(n)` on property names). -/
def strBytes (s : String) : List Byte :=
  s.data.map Char.toNat

/-- ASCII lower-casing of one byte. -/
def toLowerB (c : Byte) : Byte :=
  if 65 ≤ c && c ≤ 90 then c + 32 else c

/-- Modelled from the spec: the source's `field.equalFold` comes from the
`encoding/json`-style `fields.go`, which is not under `src/`; per the spec
the fallback key match is case-insensitive, which for the ASCII names used
here is ASCII case folding. -/
def equalFold (a b : List Byte) : Bool :=
  a.map toLowerB = b.map toLowerB

/-- One prepared property binding (`StructPropInfo` after `Prepare`): the
resolved field name, the sub-schema's `Parse` acting on the addressed
destination, the required flag (destination field not a pointer), and the
default-value assignment if one was configured.  `Prepare`'s reflection
(field resolution, pointer allocation, default type checking) is outside
the byte-level model; its outputs are these four components. -/
structure PropSpec (δ : Type) where
  name : String
  parse : String → Scanner → δ → Scanner × δ × Option GoErr
  required : Bool
  dflt : Option (δ → δ)

/-- `StructParser.getProp`: first pass preference for `bytes.Equal` (which
breaks the loop), otherwise the first `equalFold` match. -/
def getPropGo {δ : Type} : List (PropSpec δ) → Nat → Option (Nat × PropSpec δ) →
    List Byte → Option (Nat × PropSpec δ)
  | [], _, fold, _ => fold
  | pr :: rest, i, fold, name =>
    if strBytes pr.name = name then some (i, pr)
    else if fold.isNone && equalFold (strBytes pr.name) name then
      getPropGo rest (i + 1) (some (i, pr)) name
    else getPropGo rest (i + 1) fold name

/-- `StructParser.getProp` entry point. -/
def getProp {δ : Type} (props : List (PropSpec δ)) (name : List Byte) :
    Option (Nat × PropSpec δ) :=
  getPropGo props 0 none name

/-- Result of the key/value loop of `StructParser.Parse`. -/
inductive StructLoopRes (δ : Type) where
  | done (s : Scanner) (d : δ) (errs : List InvalidData) (gotProps : List Bool)
  | aborted (s : Scanner) (d : δ) (e : Option GoErr)

/-- The two control points of the key/value loop of `StructParser.Parse`:
about to read a key (the loop top) or about to read the `,`/`}` separator
(the loop bottom). -/
inductive StructPhase where
  | key | sep
deriving Repr, DecidableEq

/-- The key/value loop of `StructParser.Parse`, one structurally recursive
function over the loop phase.  At `.key`: read a key (or `}`), read `:`,
then either skip an unmatched value or run the matched property's schema at
path `path ++ name`, merging validation errors and marking the property
seen.  At `.sep`: read `,` (loop) or `}` (done).  Fuel decreases per
phase step; the wrapper supplies more fuel than the input can sustain. -/
def structLoopF {δ : Type} : Nat → StructPhase → List (PropSpec δ) → String → Scanner → δ →
    List InvalidData → List Bool → StructLoopRes δ
  | 0, _, _, _, s, d, _, _ => .aborted s d (some (.panicked "unreachable: struct fuel"))
  | fuel+1, .key, props, path, s, d, errs, gotProps =>
    match s.readToken with
    | (s1, tok, keyb, err) =>
    if tok = .tokenError then .aborted s1 d err
    else if tok = .tokenObjectEnd then .done s1 d errs gotProps
    else if tok ≠ .tokenString then
      .aborted s1 d (some (.parseError
        ("Expected object property name or '\x7d' not " ++ tok.str)))
    else
      -- resolve now, because ReadToken will invalidate keyb
      let pres := getProp props ((keyb.drop 1).take (keyb.length - 2))
      match s1.readToken with
      | (s2, tokc, _, errc) =>
      if tokc = .tokenError then .aborted s2 d errc
      else if tokc ≠ .tokenPropSep then
        .aborted s2 d (some (.parseError ("Expected ':' not " ++ tokc.str)))
      else
        match pres with
        | none =>
          match s2.SkipValue with
          | (s', some e) => .aborted s' d (some e)
          | (s', none) => structLoopF fuel .sep props path s' d errs gotProps
        | some (propIndex, prop) =>
          match prop.parse (path ++ prop.name) s2 d with
          | (s', d', perr) =>
          match perr with
          | some (.validation verr) =>
            structLoopF fuel .sep props path s' d' (vAddMany errs verr) (gotProps.set propIndex true)
          | some e => .aborted s' d' (some e)
          | none =>
            structLoopF fuel .sep props path s' d' errs (gotProps.set propIndex true)
  | fuel+1, .sep, props, path, s, d, errs, gotProps =>
    match s.readToken with
    | (s3, toks, _, errv) =>
    if toks = .tokenError then .aborted s3 d errv
    else if toks = .tokenObjectEnd then .done s3 d errs gotProps
    else if toks = .tokenItemSep then structLoopF fuel .key props path s3 d errs gotProps
    else .aborted s3 d (some (.parseError ("Expected ',' or '\x7d' not " ++ toks.str)))

/-- The required/default pass after the loop: every unseen property gets
its default (unvalidated) or, when required, a `Required` record at
`path ++ name`, in declared property order. -/
def structFinish {δ : Type} (props : List (PropSpec δ)) (path : String) (d : δ)
    (errs : List InvalidData) (gotProps : List Bool) : δ × List InvalidData :=
  props.enum.foldl
    (fun (acc : δ × List InvalidData) pi =>
      if gotProps.getD pi.1 false then acc
      else
        match pi.2.dflt with
        | some setDef => (setDef acc.1, acc.2)
        | none =>
          if pi.2.required then (acc.1, vAdd acc.2 (path ++ pi.2.name) "Required")
          else acc)
    (d, errs)

/-- `StructParser.Parse` (`types_struct.go`): expect `{`, run the key/value
loop, then the required/default pass; a non-empty record list is returned
as a `ValidationError`.  The entry reflection checks (pointer-to-struct)
hold by typing in this embedding. -/
def structParse {δ : Type} (props : List (PropSpec δ)) (path : String)
    (s : Scanner) (d : δ) : Scanner × δ × Option GoErr :=
  match s.readToken with
  | (s1, tok, _, err) =>
  if tok = .tokenError then (s1, d, err)
  else if tok ≠ .tokenObjectBegin then
    (s1, d, some (.parseError ("Expected '\x7b' not " ++ tok.str)))
  else
    match structLoopF (s1.totalLen + 1) .key props path s1 d [] (List.replicate props.length false) with
    | .aborted s' d' e => (s', d', e)
    | .done s' d' errs gotProps =>
      match structFinish props path d' errs gotProps with
      | (dFin, finErrs) =>
      if 0 < finErrs.length then (s', dFin, some (.validation finErrs))
      else (s', dFin, none)

/-! ### The slice parser (`SliceParser.Parse`) -/

/-- A Go slice: its elements and its capacity (`len` is `data.length`). -/
structure GoSlice (α : Type) where
  data : List α
  cap : Nat
deriving Repr, DecidableEq

/-- A slice validator: the `SliceValidator.ValidateSlice` capability,
observing the element list. -/
abbrev SliceValidator (α : Type) := List α → Option String

/-- `MinItems`: at least `l` elements (message `ERROR_MIN_LEN_ARR`). -/
def MinItems {α : Type} (l : Nat) : SliceValidator α := fun xs =>
  if xs.length < l then some ("Please provide at least " ++ toString l ++ " items") else none

/-- `MaxItems`: at most `l` elements (message `ERROR_MAX_LEN_ARR`). -/
def MaxItems {α : Type} (l : Nat) : SliceValidator α := fun xs =>
  if l < xs.length then some ("Please provide no more than " ++ toString l ++ " items") else none

/-- The slice-validator pass and final return of `SliceParser.Parse`. -/
def sliceFinish {α : Type} (vs : List (SliceValidator α)) (path : String)
    (s : Scanner) (val : GoSlice α) (errs : List InvalidData) :
    Scanner × GoSlice α × Option GoErr :=
  let errs := vs.foldl (fun errs vf =>
    match vf val.data with
    | some m => vAdd errs path m
    | none => errs) errs
  if 0 < errs.length then (s, val, some (.validation errs))
  else (s, val, none)

/-- The two control points of the element loop of `SliceParser.Parse`:
about to read an element, or about to read the `,`/`]` separator. -/
inductive SlicePhase where
  | elem | sep
deriving Repr, DecidableEq

/-- The element loop of `SliceParser.Parse`, one structurally recursive
function over the loop phase.  At `.elem`: grow capacity by 1.5× (min 4)
when full, extend the length with the zero value, parse the element at path
`path ++ i ++ "/"`, merge validation errors.  At `.sep`: read `,` (loop)
or `]` (run the slice validators via `sliceFinish`).  Fuel decreases per
phase step; the wrapper supplies more than the input allows. -/
def sliceLoopF {α : Type} : Nat → SlicePhase →
    (String → Scanner → α → Scanner × α × Option GoErr) →
    List (SliceValidator α) → α → String → Scanner → GoSlice α → Nat →
    List InvalidData → Scanner × GoSlice α × Option GoErr
  | 0, _, _, _, _, _, s, val, _, _ => (s, val, some (.panicked "unreachable: slice fuel"))
  | fuel+1, .elem, elemParse, vs, zero, path, s, val, i, errs =>
    let val := if val.cap ≤ i then
        { val with cap := max (val.cap + val.cap / 2) 4 }
      else val
    let val := if val.data.length ≤ i then { val with data := val.data ++ [zero] } else val
    match elemParse (path ++ Nat.repr i ++ "/") s (val.data.getD i zero) with
    | (s', elt, perr) =>
    let val := { val with data := val.data.set i elt }
    match perr with
    | some (.validation verr) =>
      sliceLoopF fuel .sep elemParse vs zero path s' val (i + 1) (vAddMany errs verr)
    | some e => (s', val, some e)
    | none => sliceLoopF fuel .sep elemParse vs zero path s' val (i + 1) errs
  | fuel+1, .sep, elemParse, vs, zero, path, s, val, i, errs =>
    match s.readToken with
    | (s3, toks, _, errv) =>
    if toks = .tokenError then (s3, val, errv)
    else if toks = .tokenArrayEnd then sliceFinish vs path s3 val errs
    else if toks = .tokenItemSep then sliceLoopF fuel .elem elemParse vs zero path s3 val i errs
    else (s3, val, some (.parseError ("Expected ',' or '[' not " ++ toks.str)))

/-- `SliceParser.Parse`: expect `[`, peek for an empty array, run the
element loop, then the slice validators.  The entry reflection checks hold
by typing in this embedding. -/
def sliceParse {α : Type} (elemParse : String → Scanner → α → Scanner × α × Option GoErr)
    (vs : List (SliceValidator α)) (zero : α) (path : String) (s : Scanner)
    (val : GoSlice α) : Scanner × GoSlice α × Option GoErr :=
  match s.readToken with
  | (s1, tok, _, err) =>
  if tok = .tokenError then (s1, val, err)
  else if tok ≠ .tokenArrayBegin then
    (s1, val, some (.parseError ("Expected '[' not " ++ tok.str)))
  else
    match s1.peekToken with
    | (sp, ptok, perr) =>
    match perr with
    | some e => (sp, val, some e)
    | none =>
      if ptok = .tokenArrayEnd then
        match sp.readToken with  -- actually consume it
        | (sr, _, _, _) => sliceFinish vs path sr val []
      else
        sliceLoopF (sp.totalLen + 1) .elem elemParse vs zero path sp val 0 []

/-! ### The enum parser (`EnumParser`) -/

/-- `EnumParser`: a wrapped schema, the allow-list, and the pre-built
invalid-value message. -/
structure EnumParser (α : Type) where
  schema : String → Scanner → α → Scanner × α × Option GoErr
  allowedVals : List α
  invalidMsg : String

/-- `Enum`: build the parser, pre-rendering the allowed values with
`fmt.Sprint` (given here as `toStr`) joined by `,`. -/
def Enum {α : Type} (schema : String → Scanner → α → Scanner × α × Option GoErr)
    (toStr : α → String) (vals : List α) : EnumParser α :=
  ⟨schema, vals, "Must be one of: " ++ String.intercalate "," (vals.map toStr)⟩

/-- `EnumParser.Parse`: let the wrapped schema parse/validate/assign; on
success compare the assigned value against the allow-list by structural
equality (`reflect.DeepEqual`); on no match report one validation error at
the current path. -/
def EnumParser.parse {α : Type} [DecidableEq α] (p : EnumParser α)
    (path : String) (s : Scanner) (v : α) : Scanner × α × Option GoErr :=
  match p.schema path s v with
  | (s', vinf, err) =>
  match err with
  | some e => (s', vinf, some e)
  | none =>
    if p.allowedVals.any (fun val => val = vinf) then (s', vinf, none)
    else (s', vinf, some (.validation (vAdd [] path p.invalidMsg)))

/-! ### The driver (`ValidatingParser.Parse`) -/

/-- `ValidatingParser.Parse`: build a scanner over the reader, run the
bound schema at root path `/`, then classify the outcome: a
`ValidationError` is returned as-is; a `*ParseError` becomes a single
record at `/`; `io.EOF` becomes the single "Unexpected end of input during
parsing" record at `/`; anything else is returned unchanged.  The
destination-type reflection check (which panics on mismatch) holds by
typing in this embedding. -/
def validatingParse {δ : Type} (schema : String → Scanner → δ → Scanner × δ × Option GoErr)
    (chunks : List (List Byte)) (endErr : GoErr) (v : δ) : δ × Option GoErr :=
  match schema "/" (NewScanner chunks endErr) v with
  | (_, d', err) =>
  match err with
  | none => (d', none)
  | some e =>
    match e with
    | .validation verr => (d', some (.validation verr))
    | .parseError m => (d', some (NewSingleVErr "/" m))
    | .eof => (d', some (NewSingleVErr "/" "Unexpected end of input during parsing"))
    | other => (d', some other)

/-! ### Shared concrete schema instances used by the theorems -/

/-- A prepared `Integer(MaxI(5))` element schema for an `[]int64`
destination (`Prepare` caches `bitSize = 64`). -/
def intElemMax5 : String → Scanner → Int → Scanner × Int × Option GoErr :=
  integerParse 64 [MaxI 5] .i64

/-- A prepared `Integer()` schema for an `int64` destination. -/
def intSchema64 : String → Scanner → Int → Scanner × Int × Option GoErr :=
  integerParse 64 [] .i64

/-! ### A universe of JSON documents for quantified theorems

`JVal` describes an arbitrary JSON value (null, booleans, non-negative
decimal numbers, escape-free strings, and arbitrarily nested arrays and
objects) together with its byte serialization, used to quantify over "every
document" in skipping theorems. -/

mutual
inductive JVal where
  | jnull
  | jtrue
  | jfalse
  | jnum (n : Nat)
  | jstr (cs : List Byte)
  | jarr (es : JList)
  | jobj (ms : JMembers)
inductive JList where
  | jnil
  | jcons (hd : JVal) (tl : JList)
inductive JMembers where
  | mnil
  | mcons (key : List Byte) (val : JVal) (tl : JMembers)
end

/-- Decimal digits of a natural number (most significant first); the fuel
bounds the number of digits, and `n + 1` always suffices. -/
def natDigitsF : Nat → Nat → List Byte
  | 0, n => [48 + n]
  | f+1, n =>
    if n < 10 then [48 + n]
    else natDigitsF f (n / 10) ++ [48 + n % 10]

/-- Decimal digits of a natural number (most significant first). -/
def natDigits (n : Nat) : List Byte :=
  natDigitsF n n

mutual
/-- Byte serialization of a `JVal` (compact, no whitespace). -/
def ser : JVal → List Byte
  | .jnull => TOK_NULL
  | .jtrue => TOK_TRUE
  | .jfalse => TOK_FALSE
  | .jnum n => natDigits n
  | .jstr cs => 34 :: (cs ++ [34])
  | .jarr es => 91 :: serArrBody es
  | .jobj ms => 123 :: serObjBody ms
/-- Serialization of an array's contents after the `[`, including the `]`. -/
def serArrBody : JList → List Byte
  | .jnil => [93]
  | .jcons v tl => ser v ++ serArrTail tl
/-- Serialization after an array element: `,` and more, or the `]`. -/
def serArrTail : JList → List Byte
  | .jnil => [93]
  | .jcons v tl => 44 :: (ser v ++ serArrTail tl)
/-- Serialization of an object's contents after the `{`, including the `}`. -/
def serObjBody : JMembers → List Byte
  | .mnil => [125]
  | .mcons k v tl => 34 :: (k ++ 34 :: 58 :: (ser v ++ serObjTail tl))
/-- Serialization after an object member: `,` and more, or the `}`. -/
def serObjTail : JMembers → List Byte
  | .mnil => [125]
  | .mcons k v tl => 44 :: (34 :: (k ++ 34 :: 58 :: (ser v ++ serObjTail tl)))
end

mutual
/-- Well-formedness: string contents and object keys are free of `"` and
`\` bytes (so the scanner's escape-free tokenization applies). -/
def jvalidB : JVal → Bool
  | .jnull => true
  | .jtrue => true
  | .jfalse => true
  | .jnum _ => true
  | .jstr cs => cs.all fun b => !(b = 92 || b = 34)
  | .jarr es => jlistValidB es
  | .jobj ms => jmemValidB ms
/-- Well-formedness of array elements. -/
def jlistValidB : JList → Bool
  | .jnil => true
  | .jcons v tl => jvalidB v && jlistValidB tl
/-- Well-formedness of object members. -/
def jmemValidB : JMembers → Bool
  | .mnil => true
  | .mcons k v tl => (k.all fun b => !(b = 92 || b = 34)) && jvalidB v && jmemValidB tl
end

mutual
/-- Recursion depth needed by the skipping routines (strictly below the
available fuel). -/
def jsize : JVal → Nat
  | .jnull => 0
  | .jtrue => 0
  | .jfalse => 0
  | .jnum _ => 0
  | .jstr _ => 0
  | .jarr es => 1 + jlistSize es
  | .jobj ms => 1 + jmemSize ms
/-- Skip-depth of array contents. -/
def jlistSize : JList → Nat
  | .jnil => 0
  | .jcons v tl => 1 + jsize v + jlistSize tl
/-- Skip-depth of object contents. -/
def jmemSize : JMembers → Nat
  | .mnil => 0
  | .mcons _ v tl => 1 + jsize v + jmemSize tl
end

/-- The first token of a serialized value. -/
def firstTok : JVal → TokenType
  | .jnull => .tokenNull
  | .jtrue => .tokenTrue
  | .jfalse => .tokenFalse
  | .jnum _ => .tokenNumber
  | .jstr _ => .tokenString
  | .jarr _ => .tokenArrayBegin
  | .jobj _ => .tokenObjectBegin

/-- The byte length of the first token of a serialized value (everything
for scalars; the opening bracket for containers). -/
def firstLen : JVal → Nat
  | .jarr _ => 1
  | .jobj _ => 1
  | v => (ser v).length

/-- The byte span of the first token of a serialized value. -/
def firstSpan : JVal → List Byte
  | .jarr _ => [91]
  | .jobj _ => [123]
  | v => ser v

/-- The two-string-field destination used by the struct theorems
(the repository's `simpleStruct{Captcha, Fullname string}`). -/
structure SimpleStruct where
  captcha : String
  fullname : String
deriving Repr, DecidableEq

/-- The prepared binding of `Prop("Captcha", String())`: a required
non-pointer string field with no default. -/
def capProp : PropSpec SimpleStruct :=
  ⟨"Captcha",
    fun p s d =>
      match stringParse [] p s d.captcha with
      | (s', v', e) => (s', { d with captcha := v' }, e),
    true, none⟩

/-- The prepared binding of `Prop("Fullname", String())`. -/
def fullProp : PropSpec SimpleStruct :=
  ⟨"Fullname",
    fun p s d =>
      match stringParse [] p s d.fullname with
      | (s', v', e) => (s', { d with fullname := v' }, e),
    true, none⟩

/-! ### Claim theorems -/

/-- C1: for a prepared struct schema with two required string properties
(non-pointer destination fields, no defaults), parsing the document `{}`
returns a validation error containing exactly two records, at `/<prop1>`
and `/<prop2>` in the order the properties were declared, each carrying
the required-property message `"Required"`.  The property sub-schemas are
universally quantified — they are never invoked on the empty document. -/
theorem C1_two_required_props_empty_doc {δ : Type} (p1 p2 : String)
    (f1 f2 : String → Scanner → δ → Scanner × δ × Option GoErr) (d : δ) :
    structParse [⟨p1, f1, true, none⟩, ⟨p2, f2, true, none⟩] "/"
      (bufScanner (strBytes "\x7b\x7d")) d =
    (⟨strBytes "\x7b\x7d", 2, [], .eof, none⟩, d,
      some (.validation [⟨"/" ++ p1, "Required"⟩, ⟨"/" ++ p2, "Required"⟩])) := rfl

/-- C2 counterexample: a malformed-JSON (fatal) failure *is* returned as a
`ValidationError` collection by `ValidatingParser.Parse` — the input `x`
produces the parse error "Expected valid JSON", which the driver converts
into a single validation record at `/`, contradicting the claim that a
fatal failure is never a ValidationError. -/
theorem C2_parse_error_becomes_validation :
    validatingParse intSchema64 [strBytes "x"] .eof 0 =
      (0, some (.validation [⟨"/", "Expected valid JSON"⟩])) := rfl

/-- C2 amended: transport/IO errors other than `io.EOF` are returned
unchanged (never as a ValidationError), but malformed JSON syntax
(`*ParseError`) is converted into a single-record ValidationError at `/`. -/
theorem C2_error_identity_dispatch :
    (∀ (δ : Type) (props : List (PropSpec δ)) (d : δ) (msg : String),
        validatingParse (structParse props) [] (.ioError msg) d =
          (d, some (.ioError msg))) ∧
    validatingParse intSchema64 [strBytes "x"] .eof 0 =
      (0, some (.validation [⟨"/", "Expected valid JSON"⟩])) :=
  ⟨fun _ _ _ _ => rfl, rfl⟩

/-- C3: parsing an empty input (a reader that returns zero bytes and
`io.EOF`) through `ValidatingParser.Parse` returns exactly one validation
record with path `/` and the unexpected-end-of-input message — in
particular not `none` and not a panic — for any bound struct schema. -/
theorem C3_empty_input_single_record {δ : Type} (props : List (PropSpec δ)) (d : δ) :
    validatingParse (structParse props) [] .eof d =
      (d, some (.validation [⟨"/", "Unexpected end of input during parsing"⟩])) := rfl

/-- C4: evaluation at the failing input of the integer-assignment bug.
`Prepare` accepts an `int32` destination (bit width 32) but `Parse`'s
assignment switch has no `*int32`/`*uint32` case, so the in-range input
`5` is rejected with the bad-destination parse error instead of being
stored; for an `int64` destination the same input is stored exactly, and
a negative value into a `uint8` destination is silently wrapped
(−5 becomes 251), not rejected. -/
theorem C4_int32_destination_rejected :
    integerPrepare .i32 = 32 ∧
    (integerParse (integerPrepare .i32) [] .i32 "/" (bufScanner (strBytes "5")) 0).2 =
      (0, some (.parseError
        "Cannot assign integer to variable of type *int32, path %!v(MISSING)")) ∧
    (integerParse (integerPrepare .i64) [] .i64 "/" (bufScanner (strBytes "5")) 0).2 =
      (5, none) ∧
    (integerParse (integerPrepare .u8) [] .u8 "/" (bufScanner (strBytes "-5")) 0).2 =
      (251, none) :=
  ⟨rfl, rfl, rfl, rfl⟩

/-- C5 counterexample: a lone `-` at end of input is returned as a *number
token* by `ReadToken`, not as a parse error — the sentinel delimiter's
rejection is discarded (`state, _ = state(0x20)`), contradicting the claim
that a lone `-` yields a parse error when the input ends after it. -/
theorem C5_lone_minus_is_number_token :
    ((NewScanner [strBytes "-"] .eof).readToken).2 =
      (.tokenNumber, strBytes "-", none) := rfl

/-- C5 amended: `ReadToken` rejects a malformed number character that is
present in the input (`-x` is a parse error and never a number token), and
when input ends before a terminator the sentinel delimiter is fed to the
state machine (`12` resolves to a number token); but the sentinel's
rejection is discarded, so a literal cut off at end of input (a lone `-`,
or `1.`) is returned as a number token instead of a parse error. -/
theorem C5_number_fsm_behaviour :
    ((NewScanner [strBytes "-x"] .eof).readToken).2 =
      (.tokenError, strBytes "-x", some (.parseError "expected digit in number literal")) ∧
    ((NewScanner [strBytes "12"] .eof).readToken).2 =
      (.tokenNumber, strBytes "12", none) ∧
    ((NewScanner [strBytes "-"] .eof).readToken).2 =
      (.tokenNumber, strBytes "-", none) ∧
    ((NewScanner [strBytes "1."] .eof).readToken).2 =
      (.tokenNumber, strBytes "1.", none) :=
  ⟨rfl, rfl, rfl, rfl⟩

/-- C7: `Unquote`/`UnquoteBytes` expand the standard escapes
`\" \\ \/ \b \f \n \r \t` and `\uXXXX`, combine a valid UTF-16 surrogate
pair into the single encoded code point, and replace an unpaired surrogate
with U+FFFD; in particular `"\u2318"` decodes to the one-character string
`⌘`. -/
theorem C7_unquote_escapes :
    Unquote (strBytes "\"\\u2318\"") = some "⌘" ∧
    UnquoteBytes (strBytes "\"\\u2318\"") = some [0xE2, 0x8C, 0x98] ∧
    UnquoteBytes (strBytes "\"\\\"\"") = some [34] ∧
    UnquoteBytes (strBytes "\"\\\\\"") = some [92] ∧
    UnquoteBytes (strBytes "\"\\/\"") = some [47] ∧
    UnquoteBytes (strBytes "\"\\b\"") = some [8] ∧
    UnquoteBytes (strBytes "\"\\f\"") = some [12] ∧
    UnquoteBytes (strBytes "\"\\n\"") = some [10] ∧
    UnquoteBytes (strBytes "\"\\r\"") = some [13] ∧
    UnquoteBytes (strBytes "\"\\t\"") = some [9] ∧
    UnquoteBytes (strBytes "\"\\uD834\\uDD1E\"") = some (utf8EncodeRune 0x1D11E) ∧
    utf8EncodeRune 0x1D11E = [0xF0, 0x9D, 0x84, 0x9E] ∧
    UnquoteBytes (strBytes "\"\\uD800x\"") = some (utf8EncodeRune 0xFFFD ++ [120]) ∧
    utf8EncodeRune 0xFFFD = [0xEF, 0xBF, 0xBD] :=
  ⟨rfl, rfl, rfl, rfl, rfl, rfl, rfl, rfl, rfl, rfl, rfl, rfl, rfl, rfl⟩

/-- C8: for a prepared slice-of-integers schema with a max-value validator
of 5 and any parent path `p`, parsing `[1,7,3]` produces exactly one
validation record at `p ++ "1" ++ "/"` (the zero-based index of the
offending element followed by a slash); `[12,1,7,3]` produces exactly the
records at indices 0 and 2, in document order.  (The offending elements
stay at the zero value in the destination — assignment is short-circuited,
as in the source.) -/
theorem C8_slice_item_paths (p : String) :
    (sliceParse intElemMax5 [] 0 p (bufScanner (strBytes "[1,7,3]")) ⟨[], 0⟩).2 =
      (⟨[1, 0, 3], 4⟩,
        some (.validation [⟨p ++ "1" ++ "/", "Must be less than or equal to 5"⟩])) ∧
    (sliceParse intElemMax5 [] 0 p (bufScanner (strBytes "[12,1,7,3]")) ⟨[], 0⟩).2 =
      (⟨[0, 1, 0, 3], 4⟩, some (.validation
        [⟨p ++ "0" ++ "/", "Must be less than or equal to 5"⟩,
         ⟨p ++ "2" ++ "/", "Must be less than or equal to 5"⟩])) :=
  ⟨rfl, rfl⟩

/-- C9: `EnumParser.Parse` first lets the wrapped schema parse, validate
and assign; a wrapped-schema error is returned as-is; on success, a value
structurally equal to one of the allowed values is accepted, and any other
value yields exactly one validation error at the current path whose
message lists the allowed values. -/
theorem C9_enum_wraps_and_checks {α : Type} [DecidableEq α]
    (sub : String → Scanner → α → Scanner × α × Option GoErr)
    (toStr : α → String) (vals : List α) (path : String) (s : Scanner) (v : α) :
    (∀ e, (sub path s v).2.2 = some e →
      (Enum sub toStr vals).parse path s v = ((sub path s v).1, (sub path s v).2.1, some e)) ∧
    ((sub path s v).2.2 = none → (sub path s v).2.1 ∈ vals →
      (Enum sub toStr vals).parse path s v = ((sub path s v).1, (sub path s v).2.1, none)) ∧
    ((sub path s v).2.2 = none → (sub path s v).2.1 ∉ vals →
      (Enum sub toStr vals).parse path s v = ((sub path s v).1, (sub path s v).2.1,
        some (.validation [⟨path,
          "Must be one of: " ++ String.intercalate "," (vals.map toStr)⟩]))) := by
  unfold EnumParser.parse Enum
  refine ⟨fun e he => ?_, fun he hmem => ?_, fun he hmem => ?_⟩
  · simp only [he]
  · simp only [he]
    have : (vals.any fun val => val = (sub path s v).2.1) = true := by
      simp only [List.any_eq_true, decide_eq_true_eq]
      exact ⟨_, hmem, rfl⟩
    simp [this, vAdd]
  · simp only [he]
    have : (vals.any fun val => val = (sub path s v).2.1) = false := by
      simp only [List.any_eq_false, decide_eq_true_eq]
      intro x hx hcontra
      exact hmem (hcontra ▸ hx)
    simp [this, vAdd]

/-! ### Lemmas about the 1024-round limit of `bytesUntilPred` (C10) -/

/-- When the buffer already holds at least `count` unread bytes, `atLeast`
returns at once without filling. -/
theorem atLeastGo_enough (fuel : Nat) (s : Scanner) (count : Nat)
    (h : s.roff + count ≤ s.buf.length) :
    Scanner.atLeastGo (fuel + 1) s count = (s, none) := by
  simp [Scanner.atLeastGo, Nat.not_lt.mpr h]

/-- When exactly one fill provides the needed byte, `atLeast` performs that
fill and returns. -/
theorem atLeastGo_one_fill (fuel : Nat) (s : Scanner) (count : Nat)
    (c rest) (hrerr : s.rerr = none) (hchunks : s.chunks = c :: rest)
    (hneed : s.buf.length < s.roff + count)
    (hgot : s.roff + count ≤ s.buf.length + c.length) :
    Scanner.atLeastGo (fuel + 2) s count =
      ({ s with buf := s.buf ++ c, chunks := rest }, none) := by
  have h2 : Scanner.atLeastGo (fuel + 2) s count
      = Scanner.atLeastGo (fuel + 1) { s with buf := s.buf ++ c, chunks := rest } count := by
    simp [Scanner.atLeastGo, hneed, Scanner.fillBuffer, hrerr, hchunks]
  rw [h2, atLeastGo_enough]
  simpa using hgot

/-- Scanning a fully scanned buffer whose every further chunk is a single
byte not satisfying the predicate: each of the `i` remaining rounds fills
one chunk, scans it without a match, and the loop ends with the source's
1024-iterations parse error, leaving the later chunks unread. -/
theorem bupLoop_allMiss (i : Nat) : ∀ (k : Nat) (s : Scanner) (off : Nat)
    (p : Byte → Bool) (c : Byte), p c = false → s.rerr = none →
    s.buf.length = s.roff + off → s.chunks = List.replicate (i + k) [c] →
    Scanner.bupLoop i s off p =
      ({ s with buf := s.buf ++ List.replicate i c, chunks := List.replicate k [c] },
        off + i, some (.parseError "1024 iterations and no result")) := by
  induction i with
  | zero =>
    intro k s off p c _ _ _ hchunks
    have hck : s.chunks = List.replicate k [c] := by simpa using hchunks
    simp [Scanner.bupLoop, ← hck]
  | succ i ih =>
    intro k s off p c hp hrerr hlen hchunks
    have hchunks' : s.chunks = [c] :: List.replicate (i + k) [c] := by
      rw [hchunks, show i + 1 + k = (i + k) + 1 by omega, List.replicate_succ]
    have hfuel : s.chunks.length + 1 = (i + k) + 2 := by
      rw [hchunks]; simp; omega
    have hfill := atLeastGo_one_fill (i + k) s (off + 1) [c]
      (List.replicate (i + k) [c]) hrerr hchunks' (by omega) (by simp; omega)
    set s1 : Scanner := { s with buf := s.buf ++ [c], chunks := List.replicate (i + k) [c] }
      with hs1
    have hdrop : s1.buf.drop (s1.roff + off) = [c] := by
      show (s.buf ++ [c]).drop (s.roff + off) = [c]
      rw [← hlen, List.drop_left]
    have hstep : Scanner.bupLoop (i + 1) s off p = Scanner.bupLoop i s1 (off + 1) p := by
      simp only [Scanner.bupLoop, hfuel, hfill, hdrop, scanPred, hp]
      simp
    rw [hstep, ih k s1 (off + 1) p c hp (by simp [hs1, hrerr]) (by simp [hs1]; omega)
      (by simp [hs1]), List.append_assoc, show off + 1 + i = off + (i + 1) by omega]
    rfl

/-- Dropping the full length of a replicated list leaves nothing. -/
theorem drop_replicate_self {α : Type} (n : Nat) (a : α) :
    (List.replicate n a).drop n = [] := by
  have h := List.drop_length (List.replicate n a)
  rw [List.length_replicate] at h
  exact h

/-- One unfolding step of the 1024-round loop of `bytesUntilPred`. -/
theorem bupLoop_succ (i : Nat) (s : Scanner) (off : Nat) (p : Byte → Bool) :
    Scanner.bupLoop (i+1) s off p =
      match Scanner.atLeastGo (s.chunks.length + 1) s (off+1) with
      | (s', some e) => (s', off, some e)
      | (s', none) =>
        match scanPred p (s'.buf.drop (s'.roff + off)) off with
        | (some found, _) => (s', found, none)
        | (none, offset') => Scanner.bupLoop i s' offset' p := rfl

/-- One unfolding step of the string-scanning loop of `ReadToken`. -/
theorem stringLoop_succ (fuel : Nat) (s : Scanner) (ep : Int) (off : Nat) :
    Scanner.stringLoop (fuel+1) s ep off =
      (match s.bytesUntilPred (off+1) (fun c => c = 92 || c = 34) with
       | (s', _, some _) => .broke s'
       | (s', off', none) =>
         if (off' : Int) = ep + 1 then Scanner.stringLoop fuel s' ep off'
         else if s'.buf.getD (s'.roff + off') 0 = 34 then .found s' off'
         else Scanner.stringLoop fuel s' (off' : Int) off') := rfl

/-- A reader that delivers 1025 single-space chunks: the whitespace skip
of the read path hits the 1024-round limit and returns the source's
iteration-limit parse error without reading the 1025th chunk. -/
theorem bup_spaces_limit :
    (NewScanner (List.replicate 1025 [32]) .eof).bytesUntilPred 0 notSpace =
      (⟨List.replicate 1024 32, 0, [[32]], .eof, none⟩, 1024,
        some (.parseError "1024 iterations and no result")) := by
  have h := bupLoop_allMiss 1024 1 (NewScanner (List.replicate 1025 [32]) .eof) 0 notSpace 32
    (by decide) rfl rfl (by norm_num [NewScanner])
  simp [Scanner.bytesUntilPred, NewScanner] at h ⊢
  exact h

/-- `ReadToken` on the 1025-space reader surfaces the iteration-limit
parse error as an ordinary token error (the limit error is stored in
`rerr` by the whitespace-skip assignment and returned). -/
theorem readToken_spaces_limit :
    ((NewScanner (List.replicate 1025 [32]) .eof).readToken).2 =
      (.tokenError, [], some (.parseError "1024 iterations and no result")) := by
  unfold Scanner.readToken
  rw [bup_spaces_limit]
  simp only [List.length_replicate, Nat.zero_add, Nat.le_refl, if_true, drop_replicate_self]

/-- `PeekToken` on the 1025-space reader likewise surfaces the
iteration-limit parse error. -/
theorem peekToken_spaces_limit :
    ((NewScanner (List.replicate 1025 [32]) .eof).peekToken).2 =
      (.tokenError, some (.parseError "1024 iterations and no result")) := by
  unfold Scanner.peekToken
  rw [bup_spaces_limit]
  simp only [List.length_replicate, Nat.zero_add, Nat.le_refl, if_true]

/-- On a reader that delivers `"` and then 1024 one-byte content chunks,
the whitespace skip finds the quote in the first chunk at once. -/
theorem bup_string_prefix :
    (NewScanner ([34] :: List.replicate 1024 [97]) .eof).bytesUntilPred 0 notSpace =
      (⟨[34], 0, List.replicate 1024 [97], .eof, none⟩, 0, none) := by
  show Scanner.bupLoop 1024 _ 0 notSpace = _
  rw [show (1024:Nat) = 1023+1 from rfl, bupLoop_succ]
  rw [show ((NewScanner ([34] :: List.replicate (1023+1) [97]) .eof).chunks.length + 1) = 1024+2
    from by simp [NewScanner]]
  rw [atLeastGo_one_fill 1024 _ (0+1) [34] (List.replicate (1023+1) [97]) rfl rfl
    (by norm_num [NewScanner]) (by norm_num [NewScanner])]
  simp [NewScanner, scanPred, notSpace]

/-- When the whitespace skip succeeds and the first token byte is `"`,
`ReadToken` reduces to its string-scanning branch. -/
theorem readToken_string_branch (s0 s1 : Scanner) (n : Nat)
    (hb : s0.bytesUntilPred 0 notSpace = (s1, n, none))
    (hlt : s1.roff + n < s1.buf.length)
    (hfirst : s1.buf.getD (s1.roff + n) 0 = 34) :
    s0.readToken =
      (match Scanner.stringLoop
          (({ s1 with roff := s1.roff + n, rerr := none } : Scanner).totalLen + 2)
          { s1 with roff := s1.roff + n, rerr := none } (-100) 0 with
       | .found s' off =>
         ({ s' with roff := s'.roff + (off + 1) }, .tokenString,
           (s'.buf.drop s'.roff).take (off + 1), none)
       | .broke s' => s'.finishError) := by
  unfold Scanner.readToken
  rw [hb]
  simp only [hfirst, singleCharTok, keywordFor, Nat.not_le.mpr hlt, if_false, if_true]
  norm_num

/-- A reader that delivers `"` and then 1024 single-byte chunks of string
content: the 1024-round limit fires inside `ReadToken`'s string-scanning
loop, where its error is not stored in `rerr`, so `ReadToken` reaches the
`panic("Didn't get any more data but didn't get an EOF")` branch. -/
theorem readToken_string_chunks_panic :
    ((NewScanner ([34] :: List.replicate 1024 [97]) .eof).readToken).2.2.2 =
      some (.panicked "Didn't get any more data but didn't get an EOF") := by
  rw [readToken_string_branch _ (⟨[34], 0, List.replicate 1024 [97], .eof, none⟩ : Scanner) 0
    bup_string_prefix (by norm_num) rfl]
  simp only [Nat.add_zero]
  have htot : (⟨[34], 0, List.replicate 1024 [97], .eof, none⟩ : Scanner).totalLen + 2
      = 1026 + 1 := by
    simp [Scanner.totalLen, List.map_replicate]
  have h3 := bupLoop_allMiss 1024 0
    (⟨[34], 0, List.replicate 1024 [97], .eof, none⟩ : Scanner) 1
    (fun c => c = 92 || c = 34) 97 (by decide) rfl (by norm_num) (by norm_num)
  have h3' : (⟨[34], 0, List.replicate 1024 [97], .eof, none⟩ : Scanner).bytesUntilPred
      (0 + 1) (fun c => c = 92 || c = 34) =
      (⟨[34] ++ List.replicate 1024 97, 0, List.replicate 0 [97], .eof, none⟩, 1 + 1024,
        some (.parseError "1024 iterations and no result")) := h3
  conv_lhs => rw [htot, stringLoop_succ, h3']
  simp [Scanner.finishError]

/-- C10 counterexample: `ReadToken` does **not** always terminate with a
token, an end-of-input/IO error, or the iteration-limit parse error — when
the 1024-round limit is hit inside the string-scanning loop (here: a
string delivered in 1024 one-byte reads) with no pending read error,
`ReadToken` reaches its `panic` branch instead. -/
theorem C10_readToken_can_panic :
    ((NewScanner ([34] :: List.replicate 1024 [97]) .eof).readToken).2.2.2 =
      some (.panicked "Didn't get any more data but didn't get an EOF") :=
  readToken_string_chunks_panic

/-- C10 amended: `bytesUntilPred` performs at most 1024 buffer-scan rounds
and returns the "1024 iterations and no result" parse error when no
matching byte was found within them, leaving further chunks unread;
`PeekToken`, and `ReadToken` when the limit is hit while skipping leading
whitespace, surface that error as an ordinary error; but when the limit is
hit inside `ReadToken`'s string-scanning loop with no pending read error,
`ReadToken` panics instead of returning it. -/
theorem C10_iteration_limit_behaviour :
    ((NewScanner (List.replicate 1025 [32]) .eof).bytesUntilPred 0 notSpace =
      (⟨List.replicate 1024 32, 0, [[32]], .eof, none⟩, 1024,
        some (.parseError "1024 iterations and no result"))) ∧
    ((NewScanner (List.replicate 1025 [32]) .eof).readToken).2 =
      (.tokenError, [], some (.parseError "1024 iterations and no result")) ∧
    ((NewScanner (List.replicate 1025 [32]) .eof).peekToken).2 =
      (.tokenError, some (.parseError "1024 iterations and no result")) ∧
    ((NewScanner ([34] :: List.replicate 1024 [97]) .eof).readToken).2.2.2 =
      some (.panicked "Didn't get any more data but didn't get an EOF") :=
  ⟨bup_spaces_limit, readToken_spaces_limit, peekToken_spaces_limit,
    readToken_string_chunks_panic⟩

/-- C9 witness: the enum over `Integer()` with allowed values 1, 5, 7 and
input `6` reports the single record listing the allowed values. -/
theorem C9_enum_wraps_and_checks_witness :
    (Enum intSchema64 toString [(1 : Int), 5, 7]).parse "/" (bufScanner (strBytes "6")) 0 =
      (⟨strBytes "6", 1, [], .eof, some .eof⟩, 6,
        some (.validation [⟨"/", "Must be one of: 1,5,7"⟩])) := by
  have h := (C9_enum_wraps_and_checks intSchema64 toString [(1 : Int), 5, 7] "/"
      (bufScanner (strBytes "6")) 0).2.2 rfl (by decide)
  exact h

end Jsonv
